import Mathlib

/-!
Verification of the PixelMuse ASCII-art conversion pipeline
(src/pixelmuse/src/ASCIIPainter.jsx): the downsample geometry, the
luminance-to-character quantization, the plain-text and markup
serialization, the HTML escaping, and the display font-size derivation.

JavaScript numbers are embedded as exact rationals (ℚ); `Math.floor`
becomes `Int.floor`, `Math.round` becomes `round`, `Math.min` / `Math.max`
become `min` / `max`.  String values are embedded as `List Char`.
-/

namespace PixelMuse

/-- An RGB sample, 8-bit channels, as read from canvas ImageData
(ASCIIPainter.jsx lines 447-450).  The alpha channel is ignored by the
pipeline. -/
structure RGB where
  r : ℕ
  g : ℕ
  b : ℕ
deriving DecidableEq

/-- A raster: width, height, and a pixel lookup function (the source's
canvas `artRef` drawing surface). -/
structure Raster where
  W : ℕ
  H : ℕ
  pixel : ℕ → ℕ → RGB

/-- The final output pair of `toASCII`: the plain text result and the
colored markup result (spec's RenderedArtifact). -/
structure RenderedArtifact where
  plainText : List Char
  markupText : List Char
deriving DecidableEq

/-- The newline character appended after each row. -/
def nl : Char := Char.ofNat 10

/-- The ampersand character. -/
def ampChar : Char := Char.ofNat 38

/-- The less-than character. -/
def ltChar : Char := Char.ofNat 60

/-- The greater-than character. -/
def gtChar : Char := Char.ofNat 62

/-- The double-quote character. -/
def quotChar : Char := Char.ofNat 34

/-- The apostrophe character. -/
def aposChar : Char := Char.ofNat 39

/-- The space character. -/
def spaceChar : Char := Char.ofNat 32

/-- Fallback character standing for JavaScript `undefined` when a string
is indexed out of range. -/
def undefChar : Char := Char.ofNat 63

/-- The default "Classic" palette preset `" .:-=+*#%@"`
(ASCIIPainter.jsx line 164). -/
def classicPalette : List Char := (" .:-=+*#%@").data

/-- `cellW = Math.max(1, Math.floor(source.width / columns))`
(ASCIIPainter.jsx lines 412-415). -/
def cellW (W columns : ℕ) : ℕ := max 1 (W / columns)

/-- `cellH = Math.max(1, Math.floor(cellW * lineHeightRatio))`
(ASCIIPainter.jsx lines 416-419).  `lineHeightRatio` is the spec's
`rowAspect`. -/
def cellH (W columns : ℕ) (rowAspect : ℚ) : ℕ :=
  max 1 (Int.toNat ⌊(cellW W columns : ℚ) * rowAspect⌋)

/-- `outW = Math.floor(source.width / cellW)` (ASCIIPainter.jsx
lines 420-422). -/
def outW (W columns : ℕ) : ℕ := W / cellW W columns

/-- `outH = Math.floor(source.height / cellH)` (ASCIIPainter.jsx
lines 423-425). -/
def outH (W H columns : ℕ) (rowAspect : ℚ) : ℕ :=
  H / cellH W columns rowAspect

/-- `lum = 0.299 * r + 0.587 * g + 0.114 * b` (ASCIIPainter.jsx
lines 451-454), with the decimal coefficients read as exact rationals. -/
def luma (r g b : ℕ) : ℚ := (299 * r + 587 * g + 114 * b) / 1000

/-- `lum = Math.min(1, Math.max(0, lum / 255 + densityBias / 100))`
(ASCIIPainter.jsx lines 455-462). -/
def normLum (lum bias : ℚ) : ℚ := min 1 (max 0 (lum / 255 + bias / 100))

/-- `if (!invert) lum = 1 - lum` (ASCIIPainter.jsx line 463), applied
after normalization. -/
def orientedLum (lum bias : ℚ) (invert : Bool) : ℚ :=
  if invert then normLum lum bias else 1 - normLum lum bias

/-- `ci = Math.round(lum * (chars.length - 1))` (ASCIIPainter.jsx
lines 464-466) for a sample `s`, as an integer.  `paletteLen` is
`chars.length`; note the subtraction happens in ℚ, so a zero-length
palette would give the factor `-1`, exactly as in the source. -/
def charIndex (paletteLen : ℕ) (invert : Bool) (bias : ℚ) (s : RGB) : ℤ :=
  round (orientedLum (luma s.r s.g s.b) bias invert * ((paletteLen : ℚ) - 1))

/-- `const char = chars[ci]` (ASCIIPainter.jsx line 467): the selected
palette character for one sample.  Out-of-range indexing (JavaScript
`undefined`) is modelled by the fallback `undefChar`. -/
def quantChar (palette : List Char) (invert : Bool) (bias : ℚ) (s : RGB) : Char :=
  palette.getD (Int.toNat (charIndex palette.length invert bias s)) undefChar

/-- The source pixels covered by the output cell at (cx, cy) when cells
are `cw × ch` source blocks, row by row. -/
def cellPixels (pixel : ℕ → ℕ → RGB) (cw ch cx cy : ℕ) : List RGB :=
  ((List.range ch).map (fun dy =>
    (List.range cw).map (fun dx => pixel (cx * cw + dx) (cy * ch + dy)))).flatten

/-- Modelled from the spec: the area-average (box) downsample of one
`cw × ch` source block, which the source performs through the Canvas 2D
resampling draw (`gctx.drawImage` with `imageSmoothingEnabled`,
ASCIIPainter.jsx lines 427-437; spec section 4.1 requires the result to be
the per-cell area average).  Each channel is the mean of the block, rounded
to the nearest integer. -/
def boxAvg (pixel : ℕ → ℕ → RGB) (cw ch cx cy : ℕ) : RGB :=
  ⟨Int.toNat (round ((((cellPixels pixel cw ch cx cy).map RGB.r).sum : ℚ) / (cw * ch : ℕ))),
   Int.toNat (round ((((cellPixels pixel cw ch cx cy).map RGB.g).sum : ℚ) / (cw * ch : ℕ))),
   Int.toNat (round ((((cellPixels pixel cw ch cx cy).map RGB.b).sum : ℚ) / (cw * ch : ℕ)))⟩

/-- The downsample step of `toASCII`: the `outW × outH` grid of averaged
samples read back by `getImageData` (ASCIIPainter.jsx lines 427-450). -/
def sampleGrid (raster : Raster) (columns : ℕ) (rowAspect : ℚ) :
    List (List RGB) :=
  (List.range (outH raster.W raster.H columns rowAspect)).map (fun cy =>
    (List.range (outW raster.W columns)).map (fun cx =>
      boxAvg raster.pixel (cellW raster.W columns)
        (cellH raster.W columns rowAspect) cx cy))

/-- The quantize step: each sample becomes the pair of its selected
palette character and its own RGB color (ASCIIPainter.jsx lines 446-471,
the spec's CharacterGrid). -/
def quantizeGrid (palette : List Char) (invert : Bool) (bias : ℚ)
    (g : List (List RGB)) : List (List (Char × RGB)) :=
  g.map (fun row => row.map (fun s => (quantChar palette invert bias s, s)))

/-- `escapeForHtml` (ASCIIPainter.jsx lines 74-82). -/
def escapeForHtml (c : Char) : List Char :=
  if c = ampChar then ("&amp;").data
  else if c = ltChar then ("&lt;").data
  else if c = gtChar then ("&gt;").data
  else if c = quotChar then ("&quot;").data
  else if c = aposChar then ("&#39;").data
  else if c = spaceChar then ("&nbsp;").data
  else [c]

/-- The markup emitted for one cell: the span opening with the cell's
`rgb(r, g, b)` color, the escaped character, and the span closing
(ASCIIPainter.jsx lines 469-471). -/
def spanText (s : RGB) (c : Char) : List Char :=
  ("<span style=\"color: rgb(").data ++ (Nat.repr s.r).data ++ (", ").data
    ++ (Nat.repr s.g).data ++ (", ").data ++ (Nat.repr s.b).data
    ++ (")\">").data ++ escapeForHtml c ++ ("</span>").data

/-- The plain-text serialization: each row's characters concatenated and
followed by a newline (`result += row + "\n"`, ASCIIPainter.jsx
lines 443-473). -/
def plainSerialize (g : List (List (Char × RGB))) : List Char :=
  (g.map (fun row => row.map Prod.fst ++ [nl])).flatten

/-- The markup serialization: each row's per-cell spans concatenated and
followed by a newline (`colorResult += colorRow + "\n"`, ASCIIPainter.jsx
lines 443-474). -/
def markupSerialize (g : List (List (Char × RGB))) : List Char :=
  (g.map (fun row =>
    (row.map (fun cs => spanText cs.2 cs.1)).flatten ++ [nl])).flatten

/-- The `toASCII` conversion pipeline (ASCIIPainter.jsx lines 404-479):
downsample, quantize, serialize, returning both output strings. -/
def toASCII (raster : Raster) (columns : ℕ) (rowAspect : ℚ)
    (palette : List Char) (invert : Bool) (bias : ℚ) : RenderedArtifact :=
  let grid := quantizeGrid palette invert bias
    (sampleGrid raster columns rowAspect)
  ⟨plainSerialize grid, markupSerialize grid⟩

/-- `ASCII_TARGET_WIDTH = 900` (ASCIIPainter.jsx line 84). -/
def asciiTargetWidth : ℚ := 900

/-- `ASCII_MAX_FONT_SIZE = 12` (ASCIIPainter.jsx line 86). -/
def asciiMaxFontSize : ℚ := 12

/-- `ASCII_MIN_FONT_SIZE = 3` (ASCIIPainter.jsx line 87). -/
def asciiMinFontSize : ℚ := 3

/-- `ASCII_CHAR_ASPECT_RATIO = 0.6` (ASCIIPainter.jsx line 88), read as
the exact rational 6/10. -/
def asciiCharAspect : ℚ := 6 / 10

/-- `Number(x.toFixed(2))`: rounding to two decimal places.  For the
positive values arising here, JavaScript's `toFixed` rounds to nearest
exactly as `round` does. -/
def round2 (x : ℚ) : ℚ := (round (x * 100) : ℚ) / 100

/-- `asciiFontSize` (ASCIIPainter.jsx lines 177-191): the display font
size derived from the requested column count. -/
def asciiFontSize (columns : ℕ) : ℚ :=
  round2 (max asciiMinFontSize (min asciiMaxFontSize
    (asciiTargetWidth / ((max 1 columns : ℕ) * asciiCharAspect))))

/-- Stated from the spec's words (section 4.4), for comparison with
`asciiFontSize`: `clamp(TARGET_WIDTH / (columns * CHAR_ASPECT), MIN_FONT,
MAX_FONT)` rounded to 2 decimal places, with TARGET_WIDTH = 900, the
character aspect 0.6, MIN_FONT = 3 and MAX_FONT = 12. -/
def specFontSize (columns : ℕ) : ℚ :=
  round2 (min 12 (max 3 (900 / ((columns : ℚ) * (6 / 10)))))

/-- Splitting a character list at each newline, the usual way a text is
read as lines: a text ending in a newline splits into its lines followed
by one empty trailing piece. -/
def splitLines : List Char → List (List Char)
  | [] => [[]]
  | c :: cs =>
    if c = nl then [] :: splitLines cs
    else
      match splitLines cs with
      | [] => [[c]]
      | l :: ls => (c :: l) :: ls

/-- The last palette character (`palette[palette.length - 1]`). -/
def lastChar (l : List Char) : Char := l.getD (l.length - 1) undefChar

/-- The first palette character (`palette[0]`). -/
def headChar (l : List Char) : Char := l.getD 0 undefChar

/-! Basic facts about the downsample geometry. -/

lemma cellW_pos (W columns : ℕ) : 0 < cellW W columns :=
  lt_of_lt_of_le Nat.zero_lt_one (le_max_left 1 _)

lemma cellH_pos (W columns : ℕ) (rowAspect : ℚ) :
    0 < cellH W columns rowAspect :=
  lt_of_lt_of_le Nat.zero_lt_one (le_max_left 1 _)

lemma cellW_le_width (W columns : ℕ) (hW : 1 ≤ W) : cellW W columns ≤ W :=
  max_le hW (Nat.div_le_self W columns)

/-- Rounding is monotone over ℚ. -/
lemma round_q_mono {x y : ℚ} (h : x ≤ y) : round x ≤ round y := by
  rw [round_eq, round_eq]
  exact Int.floor_mono (by linarith)

/-- C1, amended: for every raster with W, H ≥ 1 and every columns ≥ 1 the
downsample geometry gives outW ≥ 1 always, while outH ≥ 1 holds exactly
when the raster height is at least the derived cell height (outH is 0
whenever H < cellH). -/
theorem downsample_dims_amended (W H columns : ℕ) (rowAspect : ℚ)
    (hW : 1 ≤ W) (hH : 1 ≤ H) (hc : 1 ≤ columns) :
    1 ≤ outW W columns ∧
    (1 ≤ outH W H columns rowAspect ↔ cellH W columns rowAspect ≤ H) := by
  constructor
  · rw [outW, Nat.one_le_div_iff (cellW_pos W columns)]
    exact cellW_le_width W columns hW
  · rw [outH, Nat.one_le_div_iff (cellH_pos W columns rowAspect)]

/-- C1 witness: the amended statement instantiated at the 100 × 50 raster
with columns = 10 and rowAspect = 2. -/
theorem downsample_dims_amended_witness :
    1 ≤ outW 100 10 ∧ (1 ≤ outH 100 50 10 2 ↔ cellH 100 10 2 ≤ 50) :=
  downsample_dims_amended 100 50 10 2 (by decide) (by decide) (by decide)

/-- C1 counterexample: the raster W = 100, H = 1 with columns = 1 and
rowAspect = 2 satisfies every premise of the claim (W, H, columns ≥ 1),
yet the output height is 0, refuting outH ≥ 1. -/
theorem downsample_outH_zero :
    1 ≤ 100 ∧ 1 ≤ 1 ∧ outH 100 1 1 2 = 0 := by
  refine ⟨by decide, by decide, ?_⟩
  norm_num [outH, cellH, cellW]
  decide

/-- C7: when the requested column count exceeds the raster width, cellW
clamps to 1 and the output width equals the source width, not the
requested column count. -/
theorem columns_exceed_width (W columns : ℕ) (hW : 1 ≤ W)
    (hc : W < columns) : outW W columns = W := by
  rw [outW, cellW, Nat.div_eq_of_lt hc]
  simp

/-- C7 witness: 1000 requested columns on a 100-pixel-wide raster still
give output width 100. -/
theorem columns_exceed_width_witness : outW 100 1000 = 100 :=
  columns_exceed_width 100 1000 (by decide) (by decide)

/-- C5: with a palette of length exactly 1, for every invert flag, every
densityBias in [-100, 100] and every sample, the computed index is 0 and
the quantizer returns the palette's single character; no ill-defined
value arises. -/
theorem singleton_palette (ct : Char) (invert : Bool) (bias : ℚ) (s : RGB)
    (hb1 : -100 ≤ bias) (hb2 : bias ≤ 100) :
    charIndex 1 invert bias s = 0 ∧ quantChar [ct] invert bias s = ct := by
  have hi : charIndex 1 invert bias s = 0 := by
    simp [charIndex]
  exact ⟨hi, by simp [quantChar, hi]⟩

/-- C5 witness: the singleton-palette statement instantiated at the
ampersand palette, invert = false, bias = 0 and the sample (3, 4, 5). -/
theorem singleton_palette_witness :
    charIndex 1 false 0 ⟨3, 4, 5⟩ = 0 ∧
    quantChar [ampChar] false 0 ⟨3, 4, 5⟩ = ampChar :=
  singleton_palette ampChar false 0 ⟨3, 4, 5⟩ (by decide) (by decide)

/-- The six markup-relevant characters. -/
def specialChars : List Char :=
  [ampChar, ltChar, gtChar, quotChar, aposChar, spaceChar]

/-- C8: the markup escape is total: it maps the six special characters to
their escaped forms (space to the non-breaking form, never a literal
space) and passes every other character through unchanged; its output
never contains a literal less-than, greater-than, double quote,
apostrophe or space, and contains an ampersand only when the input was
one of the six special characters (that is, only inside an escaped
form). -/
theorem escape_for_html_total (c : Char) :
    escapeForHtml ampChar = ("&amp;").data ∧
    escapeForHtml ltChar = ("&lt;").data ∧
    escapeForHtml gtChar = ("&gt;").data ∧
    escapeForHtml quotChar = ("&quot;").data ∧
    escapeForHtml aposChar = ("&#39;").data ∧
    escapeForHtml spaceChar = ("&nbsp;").data ∧
    (c ∉ specialChars → escapeForHtml c = [c]) ∧
    ltChar ∉ escapeForHtml c ∧
    gtChar ∉ escapeForHtml c ∧
    quotChar ∉ escapeForHtml c ∧
    aposChar ∉ escapeForHtml c ∧
    spaceChar ∉ escapeForHtml c ∧
    (ampChar ∈ escapeForHtml c → c ∈ specialChars) := by
  by_cases h1 : c = ampChar
  · subst h1; decide
  by_cases h2 : c = ltChar
  · subst h2; decide
  by_cases h3 : c = gtChar
  · subst h3; decide
  by_cases h4 : c = quotChar
  · subst h4; decide
  by_cases h5 : c = aposChar
  · subst h5; decide
  by_cases h6 : c = spaceChar
  · subst h6; decide
  have he : escapeForHtml c = [c] := by
    simp [escapeForHtml, h1, h2, h3, h4, h5, h6]
  refine ⟨by decide, by decide, by decide, by decide, by decide, by decide,
    fun _ => he, ?_, ?_, ?_, ?_, ?_, ?_⟩
  · rw [he]; simpa using fun hy => h2 hy.symm
  · rw [he]; simpa using fun hy => h3 hy.symm
  · rw [he]; simpa using fun hy => h4 hy.symm
  · rw [he]; simpa using fun hy => h5 hy.symm
  · rw [he]; simpa using fun hy => h6 hy.symm
  · rw [he]
    intro hmem
    exact absurd (List.mem_singleton.mp hmem).symm h1

/-- C8 witness: the lowercase letter x is not special, so it passes
through the escape unchanged, and no special character occurs in its
escaped form. -/
theorem escape_for_html_total_witness :
    escapeForHtml (Char.ofNat 120) = [Char.ofNat 120] :=
  (escape_for_html_total (Char.ofNat 120)).2.2.2.2.2.2.1 (by decide)

lemma luma_black : luma 0 0 0 = 0 := by norm_num [luma]

lemma orientedLum_black_false : orientedLum (luma 0 0 0) 0 false = 1 := by
  norm_num [orientedLum, normLum, luma]

lemma orientedLum_black_true : orientedLum (luma 0 0 0) 0 true = 0 := by
  norm_num [orientedLum, normLum, luma]

lemma charIndex_black_false (n : ℕ) :
    charIndex n false 0 ⟨0, 0, 0⟩ = (n : ℤ) - 1 := by
  rw [charIndex]
  show round (orientedLum (luma 0 0 0) 0 false * ((n : ℚ) - 1)) = (n : ℤ) - 1
  rw [orientedLum_black_false, one_mul,
    show ((n : ℚ) - 1) = (((n : ℤ) - 1 : ℤ) : ℚ) by push_cast; ring]
  exact round_intCast _

lemma charIndex_black_true (n : ℕ) :
    charIndex n true 0 ⟨0, 0, 0⟩ = 0 := by
  rw [charIndex]
  show round (orientedLum (luma 0 0 0) 0 true * ((n : ℚ) - 1)) = 0
  rw [orientedLum_black_true, zero_mul, round_zero]

lemma quantChar_black_false (palette : List Char) :
    quantChar palette false 0 ⟨0, 0, 0⟩ = lastChar palette := by
  rw [quantChar, charIndex_black_false, lastChar,
    show ((palette.length : ℤ) - 1).toNat = palette.length - 1 by omega]

lemma quantChar_black_true (palette : List Char) :
    quantChar palette true 0 ⟨0, 0, 0⟩ = headChar palette := by
  rw [quantChar, charIndex_black_true, headChar, Int.toNat_zero]

/-- C4: on a sample grid whose samples are all black (luminance 0), with
densityBias 0 the quantizer selects the last palette character for every
cell when invert = false, and the first palette character for every cell
when invert = true. -/
theorem black_grid_extremes (palette : List Char) (g : List (List RGB))
    (hp : palette ≠ [])
    (hg : ∀ row ∈ g, ∀ s ∈ row, s = (⟨0, 0, 0⟩ : RGB)) :
    lastChar palette = palette.getLast hp ∧
    headChar palette = palette.head hp ∧
    (∀ row ∈ quantizeGrid palette false 0 g, ∀ cs ∈ row,
      cs.1 = lastChar palette) ∧
    (∀ row ∈ quantizeGrid palette true 0 g, ∀ cs ∈ row,
      cs.1 = headChar palette) := by
  refine ⟨?_, ?_, ?_, ?_⟩
  · rw [lastChar, List.getLast_eq_getElem,
      List.getD_eq_getElem palette undefChar]
  · rw [headChar]
    cases palette with
    | nil => exact absurd rfl hp
    | cons a l => rfl
  · intro row hrow cs hcs
    obtain ⟨srow, hsrow, rfl⟩ := List.mem_map.mp hrow
    obtain ⟨s, hs, rfl⟩ := List.mem_map.mp hcs
    rw [hg srow hsrow s hs]
    exact quantChar_black_false palette
  · intro row hrow cs hcs
    obtain ⟨srow, hsrow, rfl⟩ := List.mem_map.mp hrow
    obtain ⟨s, hs, rfl⟩ := List.mem_map.mp hcs
    rw [hg srow hsrow s hs]
    exact quantChar_black_true palette

/-- C4 witness: the black-grid statement instantiated at the Classic
palette and the one-cell all-black grid. -/
theorem black_grid_extremes_witness :
    lastChar classicPalette = classicPalette.getLast (by decide) ∧
    headChar classicPalette = classicPalette.head (by decide) ∧
    (∀ row ∈ quantizeGrid classicPalette false 0 [[⟨0, 0, 0⟩]],
      ∀ cs ∈ row, cs.1 = lastChar classicPalette) ∧
    (∀ row ∈ quantizeGrid classicPalette true 0 [[⟨0, 0, 0⟩]],
      ∀ cs ∈ row, cs.1 = headChar classicPalette) :=
  black_grid_extremes classicPalette [[⟨0, 0, 0⟩]] (by decide) (by decide)

/-- C9: for every columns ≥ 1 the derived display font size is exactly
the spec's clamp formula rounded to two decimal places, and at
columns = 100 the unclamped value 15 is clamped to the maximum font
size 12. -/
theorem ascii_font_size_spec (columns : ℕ) (hc : 1 ≤ columns) :
    asciiFontSize columns = specFontSize columns ∧ asciiFontSize 100 = 12 := by
  constructor
  · rw [asciiFontSize, specFontSize, Nat.max_eq_right hc]
    rw [asciiTargetWidth, asciiMinFontSize, asciiMaxFontSize, asciiCharAspect]
    rw [max_min_distrib_left]
    norm_num
  · rw [asciiFontSize, round2]
    norm_num [asciiTargetWidth, asciiMinFontSize, asciiMaxFontSize,
      asciiCharAspect]

/-- C9 witness: the font-size statement instantiated at columns = 100. -/
theorem ascii_font_size_spec_witness :
    asciiFontSize 100 = specFontSize 100 ∧ asciiFontSize 100 = 12 :=
  ascii_font_size_spec 100 (by decide)

lemma normLum_mono {l1 l2 bias : ℚ} (h : l1 ≤ l2) :
    normLum l1 bias ≤ normLum l2 bias := by
  unfold normLum
  gcongr

/-- C10: for a fixed palette of length at least 2 and a fixed density
bias, the selected palette index is monotone in the sample's luminance:
non-decreasing when invert = true and non-increasing when
invert = false. -/
theorem char_index_monotone (palette : List Char) (bias : ℚ) (s1 s2 : RGB)
    (hp : 2 ≤ palette.length)
    (hlum : luma s1.r s1.g s1.b ≤ luma s2.r s2.g s2.b) :
    charIndex palette.length true bias s1 ≤
      charIndex palette.length true bias s2 ∧
    charIndex palette.length false bias s2 ≤
      charIndex palette.length false bias s1 := by
  have hfac : (0 : ℚ) ≤ (palette.length : ℚ) - 1 := by
    have h2 : (2 : ℚ) ≤ (palette.length : ℚ) := by exact_mod_cast hp
    linarith
  have ht : normLum (luma s1.r s1.g s1.b) bias ≤
      normLum (luma s2.r s2.g s2.b) bias := normLum_mono hlum
  constructor
  · apply round_q_mono
    rw [orientedLum, orientedLum]
    simp only [if_true]
    exact mul_le_mul_of_nonneg_right ht hfac
  · apply round_q_mono
    rw [orientedLum, orientedLum]
    simp only [Bool.false_eq_true, if_false]
    exact mul_le_mul_of_nonneg_right (by linarith) hfac

/-- C10 witness: the monotonicity statement instantiated at the Classic
palette, bias 0, a black sample and a white sample. -/
theorem char_index_monotone_witness :
    charIndex classicPalette.length true 0 ⟨0, 0, 0⟩ ≤
      charIndex classicPalette.length true 0 ⟨255, 255, 255⟩ ∧
    charIndex classicPalette.length false 0 ⟨255, 255, 255⟩ ≤
      charIndex classicPalette.length false 0 ⟨0, 0, 0⟩ :=
  char_index_monotone classicPalette 0 ⟨0, 0, 0⟩ ⟨255, 255, 255⟩
    (by decide) (by norm_num [luma])

lemma splitLines_append (r rest : List Char) (h : nl ∉ r) :
    splitLines (r ++ nl :: rest) = r :: splitLines rest := by
  induction r with
  | nil => simp [splitLines]
  | cons c cs ih =>
    have hc : ¬ c = nl := fun hcn => h (hcn ▸ List.mem_cons_self c cs)
    have hcs : nl ∉ cs := fun hm => h (List.mem_cons_of_mem c hm)
    rw [List.cons_append, splitLines, if_neg hc, ih hcs]

lemma splitLines_rows (rows : List (List Char)) (h : ∀ r ∈ rows, nl ∉ r) :
    splitLines ((rows.map (fun r => r ++ [nl])).flatten) = rows ++ [[]] := by
  induction rows with
  | nil => simp [splitLines]
  | cons r rest ih =>
    rw [List.map_cons, List.flatten_cons, List.append_assoc,
      List.singleton_append,
      splitLines_append r _ (h r (List.mem_cons_self r rest)),
      ih (fun x hx => h x (List.mem_cons_of_mem r hx)),
      List.cons_append]

/-- C6: for a character grid with outH ≥ 1 rows of outW ≥ 1 cells each
(whose characters are not the line separator itself), the plain-text
serialization splits at newlines into exactly the grid's rows in order,
each of length outW, followed by one empty trailing segment — i.e.
exactly outH lines each of exactly outW characters with a trailing
newline after the last row. -/
theorem plain_serialize_lines (g : List (List (Char × RGB))) (m n : ℕ)
    (hn : g.length = n) (hm : ∀ row ∈ g, row.length = m)
    (hnl : ∀ row ∈ g, ∀ cs ∈ row, cs.1 ≠ nl)
    (hm1 : 1 ≤ m) (hn1 : 1 ≤ n) :
    splitLines (plainSerialize g) =
      g.map (fun row => row.map Prod.fst) ++ [[]] ∧
    (splitLines (plainSerialize g)).length = n + 1 ∧
    (splitLines (plainSerialize g)).dropLast.length = n ∧
    (∀ l ∈ (splitLines (plainSerialize g)).dropLast, l.length = m) ∧
    (splitLines (plainSerialize g)).getLast? = some [] := by
  have hsplit : splitLines (plainSerialize g) =
      g.map (fun row => row.map Prod.fst) ++ [[]] := by
    rw [plainSerialize,
      show g.map (fun row => row.map Prod.fst ++ [nl]) =
        (g.map (fun row => row.map Prod.fst)).map (fun r => r ++ [nl]) by
          rw [List.map_map]; rfl]
    apply splitLines_rows
    intro r hr
    obtain ⟨row, hrow, rfl⟩ := List.mem_map.mp hr
    intro hmem
    obtain ⟨cs, hcs, hcseq⟩ := List.mem_map.mp hmem
    exact hnl row hrow cs hcs hcseq
  have hdrop : (splitLines (plainSerialize g)).dropLast =
      g.map (fun row => row.map Prod.fst) := by
    rw [hsplit, List.dropLast_concat]
  refine ⟨hsplit, ?_, ?_, ?_, ?_⟩
  · rw [hsplit]
    simp [hn]
  · rw [hdrop, List.length_map, hn]
  · intro l hl
    rw [hdrop] at hl
    obtain ⟨row, hrow, rfl⟩ := List.mem_map.mp hl
    rw [List.length_map]
    exact hm row hrow
  · rw [hsplit, List.getLast?_concat]

lemma flatten_replicate_replicate {α : Type} (n m : ℕ) (v : α) :
    (List.replicate n (List.replicate m v)).flatten =
      List.replicate (n * m) v := by
  induction n with
  | zero => simp
  | succ n ih =>
    rw [List.replicate_succ, List.flatten_cons, ih, ← List.replicate_add]
    congr 1
    ring

lemma flatten_replicate_singleton {α : Type} (k : ℕ) (x : α) :
    (List.replicate k [x]).flatten = List.replicate k x := by
  have h := flatten_replicate_replicate k 1 x
  rw [Nat.mul_one] at h
  exact h

lemma avg_replicate (n m val : ℕ) (hn : 0 < n) (hm : 0 < m) :
    Int.toNat (round (((List.replicate (n * m) val).sum : ℚ) /
      ((m * n : ℕ) : ℚ))) = val := by
  have hpos : (0 : ℚ) < ((m * n : ℕ) : ℚ) := by
    exact_mod_cast Nat.mul_pos hm hn
  rw [List.sum_replicate, smul_eq_mul,
    show (((n * m) * val : ℕ) : ℚ) / ((m * n : ℕ) : ℚ) = (val : ℚ) by
      rw [div_eq_iff (ne_of_gt hpos)]; push_cast; ring,
    round_natCast]
  simp

lemma cellPixels_const (v : RGB) (cw ch cx cy : ℕ) :
    cellPixels (fun _ _ => v) cw ch cx cy = List.replicate (ch * cw) v := by
  simp only [cellPixels, List.map_const', List.length_range]
  exact flatten_replicate_replicate ch cw v

/-- Box-averaging a uniformly colored block returns its color exactly. -/
lemma boxAvg_const (v : RGB) (cw ch cx cy : ℕ) (hw : 0 < cw)
    (hh : 0 < ch) : boxAvg (fun _ _ => v) cw ch cx cy = v := by
  obtain ⟨vr, vg, vb⟩ := v
  rw [boxAvg, cellPixels_const]
  simp only [List.map_replicate]
  rw [RGB.mk.injEq]
  exact ⟨avg_replicate ch cw vr hh hw, avg_replicate ch cw vg hh hw,
    avg_replicate ch cw vb hh hw⟩

/-- C2 evaluation (the code as written, refuting the claim): converting a
raster of width 0 and height 100 with the default settings produces, for
both outputs, a string of 50 newline characters — not the empty string
the spec requires. -/
theorem zero_width_raster_output :
    (toASCII ⟨0, 100, fun _ _ => ⟨255, 255, 255⟩⟩ 100 2 classicPalette
      false 0).plainText = List.replicate 50 nl ∧
    (toASCII ⟨0, 100, fun _ _ => ⟨255, 255, 255⟩⟩ 100 2 classicPalette
      false 0).plainText ≠ [] ∧
    (toASCII ⟨0, 100, fun _ _ => ⟨255, 255, 255⟩⟩ 100 2 classicPalette
      false 0).markupText = List.replicate 50 nl := by
  have hW : outW 0 100 = 0 := by norm_num [outW, cellW]
  have hH : outH 0 100 100 2 = 50 := by
    norm_num [outH, cellH, cellW]
    decide
  have hgrid : sampleGrid ⟨0, 100, fun _ _ => ⟨255, 255, 255⟩⟩ 100 2 =
      List.replicate 50 [] := by
    rw [sampleGrid]
    show (List.range (outH 0 100 100 2)).map _ = _
    rw [hH, hW]
    simp
  rw [toASCII]
  simp only [hgrid, quantizeGrid, plainSerialize, markupSerialize,
    List.map_replicate, List.map_nil, List.flatten_nil, List.nil_append,
    flatten_replicate_singleton]
  refine ⟨trivial, ?_, trivial⟩
  decide

/-- C6 witness: the line-structure statement instantiated at the 1 × 1
grid holding one ampersand cell. -/
theorem plain_serialize_lines_witness :
    splitLines (plainSerialize [[(ampChar, ⟨0, 0, 0⟩)]]) =
      [[(ampChar, (⟨0, 0, 0⟩ : RGB))]].map (fun row => row.map Prod.fst)
        ++ [[]] ∧
    (splitLines (plainSerialize [[(ampChar, ⟨0, 0, 0⟩)]])).length = 1 + 1 ∧
    (splitLines (plainSerialize [[(ampChar, ⟨0, 0, 0⟩)]])).dropLast.length
      = 1 ∧
    (∀ l ∈ (splitLines (plainSerialize [[(ampChar, ⟨0, 0, 0⟩)]])).dropLast,
      l.length = 1) ∧
    (splitLines (plainSerialize [[(ampChar, ⟨0, 0, 0⟩)]])).getLast?
      = some [] :=
  plain_serialize_lines [[(ampChar, ⟨0, 0, 0⟩)]] 1 1 (by decide)
    (by decide) (by decide) (by decide) (by decide)

/-- The 100 × 50 raster uniformly colored RGB (10, 200, 10). -/
def greenRaster : Raster := ⟨100, 50, fun _ _ => ⟨10, 200, 10⟩⟩

lemma boxAvg_green (cx cy : ℕ) :
    boxAvg (fun _ _ => (⟨10, 200, 10⟩ : RGB)) 10 20 cx cy =
      (⟨10, 200, 10⟩ : RGB) :=
  boxAvg_const ⟨10, 200, 10⟩ 10 20 cx cy (by decide) (by decide)

lemma sampleGrid_green :
    sampleGrid greenRaster 10 2 =
      List.replicate 2 (List.replicate 10 ⟨10, 200, 10⟩) := by
  have h3 : cellW 100 10 = 10 := by norm_num [cellW]
  have h4 : cellH 100 10 2 = 20 := by
    norm_num [cellH, cellW]
    decide
  have h1 : outW 100 10 = 10 := by norm_num [outW, cellW]
  have h2 : outH 100 50 10 2 = 2 := by
    rw [outH, h4]
  rw [sampleGrid]
  simp only [greenRaster]
  rw [h1, h2, h3, h4]
  simp only [boxAvg_green, List.map_const', List.length_range]

lemma charIndex_green : charIndex 10 false 0 ⟨10, 200, 10⟩ = 5 := by
  rw [charIndex]
  norm_num [orientedLum, normLum, luma, round_eq, Int.floor_eq_iff]

lemma quantChar_green :
    quantChar classicPalette false 0 ⟨10, 200, 10⟩ = Char.ofNat 43 := by
  rw [quantChar, show classicPalette.length = 10 from rfl, charIndex_green]
  decide

lemma green_plainText :
    (toASCII greenRaster 10 2 classicPalette false 0).plainText =
      ("++++++++++\n++++++++++\n").data := by
  rw [toASCII]
  show plainSerialize (quantizeGrid _ _ _ (sampleGrid _ _ _)) = _
  rw [sampleGrid_green, quantizeGrid, List.map_replicate,
    List.map_replicate, quantChar_green, plainSerialize,
    List.map_replicate, List.map_replicate]
  decide

/-- C3 counterexample: on the 100 × 50 uniform RGB (10, 200, 10) raster
with columns = 10, rowAspect = 2, the Classic palette, invert = false and
bias = 0, the character at the selected palette index 5 is the plus sign,
not the equals sign the claim names, and the plain text output is not two
rows of equals signs. -/
theorem green_example_counterexample :
    classicPalette.getD 5 undefChar ≠ Char.ofNat 61 ∧
    (toASCII greenRaster 10 2 classicPalette false 0).plainText ≠
      ("==========\n==========\n").data := by
  refine ⟨by decide, ?_⟩
  rw [green_plainText]
  decide

/-- C3, amended: on the 100 × 50 uniform RGB (10, 200, 10) raster with
columns = 10, rowAspect = 2, the Classic palette, invert = false and
bias = 0, the pipeline computes cellW = 10, cellH = 20, outW = 10,
outH = 2, selects palette index 5 for every cell — whose character is
the plus sign — and the plain text output is two rows of ten plus signs,
each followed by a newline. -/
theorem green_example_evaluation :
    cellW 100 10 = 10 ∧ cellH 100 10 2 = 20 ∧ outW 100 10 = 10 ∧
    outH 100 50 10 2 = 2 ∧
    charIndex 10 false 0 ⟨10, 200, 10⟩ = 5 ∧
    quantChar classicPalette false 0 ⟨10, 200, 10⟩ = Char.ofNat 43 ∧
    (toASCII greenRaster 10 2 classicPalette false 0).plainText =
      ("++++++++++\n++++++++++\n").data := by
  have h4 : cellH 100 10 2 = 20 := by
    norm_num [cellH, cellW]
    decide
  exact ⟨by norm_num [cellW], h4, by norm_num [outW, cellW],
    by rw [outH, h4], charIndex_green, quantChar_green, green_plainText⟩

end PixelMuse
